import Mathlib

/-!
Verification of the Meshtastic tracker protocol/aggregation layer.

This file gives a shallow embedding, in Lean 4, of the core of the
`meshtastic_tracker` integration: the AES-CTR crypto helpers and envelope
interpreter of `proto.py`, the deduplicating packet receiver and JSON sender of
`pb_data.py`, the outbound validators of `helpers.py` and `__init__.py`, and
the merge/debounce aggregator of `coordinator.py`.  Machine integers are
modelled as `Nat`/`Int` (bytes are `Nat` values below 256), Python floats on
the value paths exercised here as exact rationals, Python dicts as
insertion-ordered association lists, and fallible Python code (exceptions) as
`Option`/`Except` results.  Behaviour of the third-party libraries the source
calls into (`cryptography`'s AES-CTR, Python's `base64`, the protobuf wire
format, `cachetools.TTLCache`) is reproduced from those libraries' documented
semantics, since the repository relies on them bit-exactly.
-/

set_option autoImplicit false

namespace MeshtasticTracker

/-! ## Python dicts as insertion-ordered association lists -/

/-- Python `dict` lookup (`m.get(k)` / `m[k]`): the value of the entry with key
`k`, if any.  Dicts built by the code below keep keys unique, so taking the
first match is exact. -/
def dictLookup {α : Type} : List (String × α) → String → Option α
  | [], _ => none
  | e :: m, k => if e.1 = k then some e.2 else dictLookup m k

/-- Python `dict` assignment `m[k] = v`: replace the value in place if the key
exists, else append a new entry (dicts preserve insertion order). -/
def dictSet {α : Type} : List (String × α) → String → α → List (String × α)
  | [], k, v => [(k, v)]
  | e :: m, k, v => if e.1 = k then (k, v) :: m else e :: dictSet m k v

/-- Python dict merge `{**a, **b}` (also `a.update(b)` semantics): start from
`a` and assign every entry of `b` in order, so later values win. -/
def dictMerge {α : Type} (a b : List (String × α)) : List (String × α) :=
  b.foldl (fun m e => dictSet m e.1 e.2) a

/-! ## Python `base64.b64decode`

`proto.py` decodes the channel PSK with
`base64.b64decode(key_b64.replace("_", "/").replace("-", "+"))`.
`b64decode` (with its default `validate=False`) discards characters outside
the base64 alphabet, then decodes groups of four symbols, accepting `=`
padding at the end and raising `binascii.Error` when the number of data
characters is not a possible base64 length.  Extra bits in the final group are
ignored, as CPython does. -/

/-- Value of one standard-alphabet base64 symbol. -/
def b64Index (c : Char) : Option Nat :=
  if 'A' ≤ c ∧ c ≤ 'Z' then some (c.toNat - 'A'.toNat)
  else if 'a' ≤ c ∧ c ≤ 'z' then some (c.toNat - 'a'.toNat + 26)
  else if '0' ≤ c ∧ c ≤ '9' then some (c.toNat - '0'.toNat + 52)
  else if c = '+' then some 62
  else if c = '/' then some 63
  else none

/-- Decode a run of base64 symbols four at a time; `=` padding may only end
the input.  `none` models `binascii.Error`. -/
def b64Chunks : List Char → Option (List Nat)
  | [] => some []
  | a :: b :: c :: d :: rest =>
    match b64Index a, b64Index b with
    | some x, some y =>
      if c = '=' then
        if d = '=' ∧ rest = [] then some [x * 4 + y / 16] else none
      else
        match b64Index c with
        | some z =>
          if d = '=' then
            if rest = [] then some [x * 4 + y / 16, y % 16 * 16 + z / 4] else none
          else
            match b64Index d with
            | some w =>
              match b64Chunks rest with
              | some tail =>
                some ([x * 4 + y / 16, y % 16 * 16 + z / 4, z % 4 * 64 + w] ++ tail)
              | none => none
            | none => none
        | none => none
    | _, _ => none
  | _ => none

/-- Python `base64.b64decode(s)` with `validate=False`: drop characters that
are neither alphabet symbols nor `=`, then decode. -/
def b64decode (s : String) : Option (List Nat) :=
  b64Chunks (s.data.filter (fun c => (b64Index c).isSome || c == '='))

/-- The key normalisation done before decoding in `proto.py`:
`key_b64.replace("_", "/").replace("-", "+")` (URL-safe alphabet mapped to the
standard one). -/
def normalizeKeyB64 (s : String) : String :=
  ⟨s.data.map (fun c => if c = '_' then '/' else if c = '-' then '+' else c)⟩

/-! ## AES-128 and counter mode

`proto.py` encrypts/decrypts with
`Cipher(algorithms.AES(key_bytes), modes.CTR(nonce))` from the `cryptography`
package.  We reproduce that primitive: AES-128 (the 16-byte channel-key case
used by the integration; other key lengths make the model fail just as an
invalid key size raises in the library), with CTR mode treating the 16-byte
nonce as a big-endian initial counter incremented per block.  The S-box is
computed from its definition (inverse in GF(2^8) followed by the affine map)
rather than tabulated. -/

/-- Byte-wise xor. -/
def bxor (a b : Nat) : Nat := Nat.xor a b

/-- Multiplication by `x` in GF(2^8) modulo `x^8 + x^4 + x^3 + x + 1`. -/
def xtime (a : Nat) : Nat :=
  if a < 128 then 2 * a else bxor (2 * a - 256) 0x1b

/-- GF(2^8) product, by shift-and-add over the bits of `b`. -/
def gfMul : Nat → Nat → Nat
  | _, 0 => 0
  | a, b + 1 =>
    let rest := gfMul (xtime a) ((b + 1) / 2)
    if (b + 1) % 2 = 1 then bxor a rest else rest

/-- GF(2^8) exponentiation. -/
def gfPow (a : Nat) : Nat → Nat
  | 0 => 1
  | n + 1 => gfMul a (gfPow a n)

/-- Rotate the low 8 bits of a byte left by one. -/
def rotl8 (a : Nat) : Nat := a * 2 % 256 + a / 128

/-- The AES S-box: multiplicative inverse in GF(2^8) (i.e. `a ^ 254`, with 0
mapped to 0) followed by the affine transformation. -/
def sbox (a : Nat) : Nat :=
  let inv := if a = 0 then 0 else gfPow a 254
  bxor (bxor (bxor inv (rotl8 inv)) (bxor (rotl8 (rotl8 inv)) (rotl8 (rotl8 (rotl8 inv)))))
    (bxor (rotl8 (rotl8 (rotl8 (rotl8 inv)))) 0x63)

/-- Apply the S-box to each byte of a word. -/
def subWord (w : List Nat) : List Nat := w.map sbox

/-- Rotate a 4-byte word left by one byte. -/
def rotWord : List Nat → List Nat
  | [] => []
  | a :: rest => rest ++ [a]

/-- AES round constant `Rcon[i]` (first byte; the rest of the word is zero). -/
def rconByte : Nat → Nat
  | 0 => 1
  | n + 1 => xtime (rconByte n)

/-- One step of the AES-128 key schedule: the next 4-byte word from the words
produced so far. -/
def nextKeyWord (acc : List (List Nat)) : List Nat :=
  let i := acc.length
  let prev := (acc.getLast?).getD []
  let w4 := acc.getD (i - 4) []
  if i % 4 = 0 then
    List.zipWith bxor w4
      (List.zipWith bxor (subWord (rotWord prev)) [rconByte (i / 4 - 1), 0, 0, 0])
  else
    List.zipWith bxor w4 prev

/-- Append `n` further key-schedule words. -/
def expandGo : Nat → List (List Nat) → List (List Nat)
  | 0, acc => acc
  | n + 1, acc => expandGo n (acc ++ [nextKeyWord acc])

/-- AES-128 key expansion: 44 words `w0..w43` from a 16-byte key. -/
def expandKey (key : List Nat) : List (List Nat) :=
  expandGo 40
    [(key.take 4), ((key.drop 4).take 4), ((key.drop 8).take 4), ((key.drop 12).take 4)]

/-- Round key `r` (16 bytes) from the expanded key schedule. -/
def roundKey (ws : List (List Nat)) (r : Nat) : List Nat :=
  (((ws.drop (4 * r)).take 4)).flatten

/-- AddRoundKey: byte-wise xor of state and round key. -/
def addRoundKey (rk st : List Nat) : List Nat := List.zipWith bxor rk st

/-- SubBytes. -/
def subBytes (st : List Nat) : List Nat := st.map sbox

/-- ShiftRows on the column-major flat state: `out[r + 4c] = in[r + 4((c + r) mod 4)]`. -/
def shiftRows (st : List Nat) : List Nat :=
  [0, 5, 10, 15, 4, 9, 14, 3, 8, 13, 2, 7, 12, 1, 6, 11].map (fun i => st.getD i 0)

/-- MixColumns on one 4-byte column. -/
def mixColumn (a b c d : Nat) : List Nat :=
  [bxor (bxor (gfMul 2 a) (gfMul 3 b)) (bxor c d),
   bxor (bxor a (gfMul 2 b)) (bxor (gfMul 3 c) d),
   bxor (bxor a b) (bxor (gfMul 2 c) (gfMul 3 d)),
   bxor (bxor (gfMul 3 a) b) (bxor c (gfMul 2 d))]

/-- MixColumns on the flat 16-byte state. -/
def mixColumns (st : List Nat) : List Nat :=
  (List.range 4).flatMap (fun c =>
    mixColumn (st.getD (4 * c) 0) (st.getD (4 * c + 1) 0)
      (st.getD (4 * c + 2) 0) (st.getD (4 * c + 3) 0))

/-- AES-128 block encryption (10 rounds): initial AddRoundKey, nine full
rounds, and the final round without MixColumns. -/
def aesEncryptBlock (key block : List Nat) : List Nat :=
  addRoundKey (roundKey (expandKey key) 10)
    (shiftRows (subBytes
      ((List.range 9).foldl
        (fun st r => addRoundKey (roundKey (expandKey key) (r + 1))
          (mixColumns (shiftRows (subBytes st))))
        (addRoundKey (roundKey (expandKey key) 0) block))))

/-- Read a byte string as a big-endian natural number. -/
def natOfBytesBE (bs : List Nat) : Nat := bs.foldl (fun a b => a * 256 + b) 0

/-- Write a natural number as `len` big-endian bytes. -/
def bytesOfNatBE (len n : Nat) : List Nat :=
  (List.range len).map (fun k => n / 256 ^ (len - 1 - k) % 256)

/-- The `i`-th CTR counter block: nonce read big-endian, plus `i`, modulo 2^128. -/
def ctrCounterBlock (nonce : List Nat) (i : Nat) : List Nat :=
  bytesOfNatBE 16 ((natOfBytesBE nonce + i) % 2 ^ 128)

/-- The CTR keystream: AES encryptions of the counter blocks, truncated to `len`. -/
def ctrKeystream (key nonce : List Nat) (len : Nat) : List Nat :=
  ((List.range ((len + 15) / 16)).flatMap
    (fun i => aesEncryptBlock key (ctrCounterBlock nonce i))).take len

/-- AES-CTR transform (encryption and decryption are the same operation):
xor the data with the keystream.  A key that is not 16 bytes long fails, as
`algorithms.AES` raises on an invalid key size. -/
def aesCtrTransform (key nonce data : List Nat) : Option (List Nat) :=
  if key.length = 16 then some (List.zipWith bxor data (ctrKeystream key nonce data.length))
  else none

/-- `n`-byte little-endian encoding, as `packet_id.to_bytes(8, "little")` for
values that fit (the u32 ids handled here always do). -/
def bytesOfNatLE (len n : Nat) : List Nat :=
  (List.range len).map (fun k => n / 256 ^ k % 256)

/-- The per-packet CTR nonce of `proto.py`: packet id then source id, each
zero-extended to 8 little-endian bytes. -/
def meshNonce (packetId fromId : Nat) : List Nat :=
  bytesOfNatLE 8 packetId ++ bytesOfNatLE 8 fromId

/-- Read a byte string as a little-endian natural number. -/
def natOfBytesLE (bs : List Nat) : Nat := bs.foldr (fun b a => a * 256 + b) 0

/-! ## Protobuf wire format

`proto.py` and `pb_data.py` parse and serialise protobuf messages through the
generated `meshtastic.protobuf` classes.  We model the wire format directly: a
message is scanned into a list of `(field number, wire value)` records
(unknown fields are tolerated, malformed input fails, as
`ParseFromString` raises `DecodeError`), and each message type folds the
records it knows into a default-initialised record, later occurrences
overriding earlier ones. -/

/-- Read one varint (at most 10 bytes, value truncated to 64 bits as protobuf
does), returning the value and the remaining bytes. -/
def readVarintGo : Nat → List Nat → Option (Nat × List Nat)
  | 0, _ => none
  | _ + 1, [] => none
  | fuel + 1, b :: rest =>
    if b < 128 then some (b, rest)
    else (readVarintGo fuel rest).map (fun vr => (b % 128 + 128 * vr.1, vr.2))

/-- Read one varint from a byte string. -/
def readVarint (bs : List Nat) : Option (Nat × List Nat) :=
  (readVarintGo 10 bs).map (fun vr => (vr.1 % 2 ^ 64, vr.2))

/-- One decoded wire value. -/
inductive WireVal where
  | varint (n : Nat)
  | fixed64 (n : Nat)
  | lengthDelim (bs : List Nat)
  | fixed32 (n : Nat)
deriving Repr, DecidableEq

/-- Scan a whole byte string into `(field number, wire value)` records.  The
fuel argument only bounds the recursion; `scanFields` passes enough for any
input. -/
def scanFieldsGo : Nat → List Nat → Option (List (Nat × WireVal))
  | _, [] => some []
  | 0, _ :: _ => none
  | fuel + 1, bs =>
    match readVarint bs with
    | none => none
    | some (key, r1) =>
      let f := key / 8
      if f = 0 then none
      else
        match key % 8 with
        | 0 =>
          match readVarint r1 with
          | none => none
          | some (v, r2) =>
            (scanFieldsGo fuel r2).map (fun tail => (f, WireVal.varint v) :: tail)
        | 1 =>
          if r1.length < 8 then none
          else
            (scanFieldsGo fuel (r1.drop 8)).map
              (fun tail => (f, WireVal.fixed64 (natOfBytesLE (r1.take 8))) :: tail)
        | 2 =>
          match readVarint r1 with
          | none => none
          | some (len, r2) =>
            if r2.length < len then none
            else
              (scanFieldsGo fuel (r2.drop len)).map
                (fun tail => (f, WireVal.lengthDelim (r2.take len)) :: tail)
        | 5 =>
          if r1.length < 4 then none
          else
            (scanFieldsGo fuel (r1.drop 4)).map
              (fun tail => (f, WireVal.fixed32 (natOfBytesLE (r1.take 4))) :: tail)
        | _ => none

/-- Scan a byte string into wire records. -/
def scanFields (bs : List Nat) : Option (List (Nat × WireVal)) :=
  scanFieldsGo bs.length bs

/-- Varint serialisation (for `SerializeToString` of outbound messages). -/
def writeVarint : Nat → List Nat
  | n =>
    if n < 128 then [n]
    else (n % 128 + 128) :: writeVarint (n / 128)

/-- Interpret the low 32 bits of a wire value as a signed `int32`/`sfixed32`. -/
def asInt32 (n : Nat) : Int :=
  if n % 2 ^ 32 < 2 ^ 31 then (n % 2 ^ 32 : Int) else (n % 2 ^ 32 : Int) - 2 ^ 32

/-! ## UTF-8 decoding

`payload.decode("utf8")` and protobuf string fields reject invalid UTF-8; the
decoder below is the strict one (overlong encodings, surrogates and
out-of-range code points fail). -/

/-- Is `b` a UTF-8 continuation byte? -/
def isCont (b : Nat) : Bool := 0x80 ≤ b ∧ b < 0xC0

/-- The value carried by a continuation byte. -/
def contVal (b : Nat) : Nat := b - 0x80

/-- Strict UTF-8 decoding of a byte list into code points. -/
def utf8DecodeGo : Nat → List Nat → Option (List Char)
  | _, [] => some []
  | 0, _ :: _ => none
  | fuel + 1, b :: rest =>
    if b < 0x80 then
      (utf8DecodeGo fuel rest).map (fun cs => Char.ofNat b :: cs)
    else if b < 0xC2 then none
    else if b < 0xE0 then
      match rest with
      | c :: rest2 =>
        if isCont c then
          (utf8DecodeGo fuel rest2).map
            (fun cs => Char.ofNat ((b - 0xC0) * 64 + contVal c) :: cs)
        else none
      | _ => none
    else if b < 0xF0 then
      match rest with
      | c :: d :: rest2 =>
        if isCont c ∧ isCont d then
          let cp := (b - 0xE0) * 4096 + contVal c * 64 + contVal d
          if cp < 0x800 ∨ (0xD800 ≤ cp ∧ cp < 0xE000) then none
          else (utf8DecodeGo fuel rest2).map (fun cs => Char.ofNat cp :: cs)
        else none
      | _ => none
    else if b < 0xF5 then
      match rest with
      | c :: d :: e :: rest2 =>
        if isCont c ∧ isCont d ∧ isCont e then
          let cp := (b - 0xF0) * 262144 + contVal c * 4096 + contVal d * 64 + contVal e
          if cp < 0x10000 ∨ 0x110000 ≤ cp then none
          else (utf8DecodeGo fuel rest2).map (fun cs => Char.ofNat cp :: cs)
        else none
      | _ => none
    else none

/-- Python `bytes.decode("utf8")`. -/
def utf8Decode (bs : List Nat) : Option String :=
  (utf8DecodeGo bs.length bs).map (fun cs => ⟨cs⟩)

/-- Python `str.encode("utf-8")`, used when building outbound text payloads. -/
def utf8Encode (s : String) : List Nat :=
  s.toUTF8.toList.map (fun b => b.toNat)

/-! ## Meshtastic protobuf message types

Records for the generated protobuf classes used by `proto.py`
(`mesh_pb2.Data`, `mesh_pb2.Position`, `telemetry_pb2.Telemetry`,
`mesh_pb2.User`, `mesh_pb2.NeighborInfo`), with proto3 zero defaults.  Float
fields that are only passed through are kept as their IEEE-754 bit patterns;
integer fields use the proto scalar semantics (`uint32` truncation,
`int32`/`sfixed32` sign). -/

/-- `mesh_pb2.Data`: `portnum = 1` (varint enum), `payload = 2` (bytes). -/
structure PbData where
  portnum : Nat
  payload : List Nat
deriving Repr, DecidableEq

/-- `mesh_pb2.Position`, restricted to the fields `_as_position` reads:
`latitude_i = 1` (sfixed32), `longitude_i = 2` (sfixed32), `altitude = 3`
(int32), `PDOP = 11` (uint32), `ground_speed = 15` (uint32),
`ground_track = 16` (uint32), `sats_in_view = 19` (uint32),
`precision_bits = 23` (uint32). -/
structure Position where
  latitudeI : Int
  longitudeI : Int
  altitude : Int
  pdop : Nat
  groundSpeed : Nat
  groundTrack : Nat
  satsInView : Nat
  precisionBits : Nat
deriving Repr, DecidableEq

/-- `telemetry_pb2.DeviceMetrics`: `battery_level = 1` (uint32), then the
floats `voltage = 2`, `channel_utilization = 3`, `air_util_tx = 4` kept as
bit patterns. -/
structure DeviceMetrics where
  batteryLevel : Nat
  voltage : Nat
  channelUtilization : Nat
  airUtilTx : Nat
deriving Repr, DecidableEq

/-- `telemetry_pb2.EnvironmentMetrics`: floats `temperature = 1`,
`relative_humidity = 2`, `barometric_pressure = 3`, `gas_resistance = 4`. -/
structure EnvironmentMetrics where
  temperature : Nat
  relativeHumidity : Nat
  barometricPressure : Nat
  gasResistance : Nat
deriving Repr, DecidableEq

/-- The `variant` oneof of `telemetry_pb2.Telemetry` (`device_metrics = 2`,
`environment_metrics = 3`), as reported by `WhichOneof`. -/
inductive TelemetryVariant where
  | unset
  | deviceMetrics (m : DeviceMetrics)
  | environmentMetrics (m : EnvironmentMetrics)
deriving Repr, DecidableEq

/-- `mesh_pb2.User`, restricted to the fields `_as_node_info` reads:
`id = 1`, `long_name = 2`, `short_name = 3` (strings). -/
structure User where
  id : String
  longName : String
  shortName : String
deriving Repr, DecidableEq

/-- One `mesh_pb2.Neighbor`: `node_id = 1` (uint32), `snr = 2` (float). -/
structure Neighbor where
  nodeId : Nat
  snr : Nat
deriving Repr, DecidableEq

/-- Fold wire records into a `Data` record (later occurrences override). -/
def buildPbData (fs : List (Nat × WireVal)) : PbData :=
  fs.foldl
    (fun d f =>
      match f with
      | (1, WireVal.varint v) => { d with portnum := v % 2 ^ 32 }
      | (2, WireVal.lengthDelim bs) => { d with payload := bs }
      | _ => d)
    ⟨0, []⟩

/-- `mesh_pb2.Data.ParseFromString`. -/
def parsePbData (bs : List Nat) : Option PbData :=
  (scanFields bs).map buildPbData

/-- Fold wire records into a `Position` record. -/
def buildPosition (fs : List (Nat × WireVal)) : Position :=
  fs.foldl
    (fun p f =>
      match f with
      | (1, WireVal.fixed32 n) => { p with latitudeI := asInt32 n }
      | (2, WireVal.fixed32 n) => { p with longitudeI := asInt32 n }
      | (3, WireVal.varint v) => { p with altitude := asInt32 v }
      | (11, WireVal.varint v) => { p with pdop := v % 2 ^ 32 }
      | (15, WireVal.varint v) => { p with groundSpeed := v % 2 ^ 32 }
      | (16, WireVal.varint v) => { p with groundTrack := v % 2 ^ 32 }
      | (19, WireVal.varint v) => { p with satsInView := v % 2 ^ 32 }
      | (23, WireVal.varint v) => { p with precisionBits := v % 2 ^ 32 }
      | _ => p)
    ⟨0, 0, 0, 0, 0, 0, 0, 0⟩

/-- `mesh_pb2.Position.ParseFromString`. -/
def parsePosition (bs : List Nat) : Option Position :=
  (scanFields bs).map buildPosition

/-- Fold wire records into a `DeviceMetrics` record. -/
def buildDeviceMetrics (fs : List (Nat × WireVal)) : DeviceMetrics :=
  fs.foldl
    (fun m f =>
      match f with
      | (1, WireVal.varint v) => { m with batteryLevel := v % 2 ^ 32 }
      | (2, WireVal.fixed32 n) => { m with voltage := n }
      | (3, WireVal.fixed32 n) => { m with channelUtilization := n }
      | (4, WireVal.fixed32 n) => { m with airUtilTx := n }
      | _ => m)
    ⟨0, 0, 0, 0⟩

/-- Fold wire records into an `EnvironmentMetrics` record. -/
def buildEnvironmentMetrics (fs : List (Nat × WireVal)) : EnvironmentMetrics :=
  fs.foldl
    (fun m f =>
      match f with
      | (1, WireVal.fixed32 n) => { m with temperature := n }
      | (2, WireVal.fixed32 n) => { m with relativeHumidity := n }
      | (3, WireVal.fixed32 n) => { m with barometricPressure := n }
      | (4, WireVal.fixed32 n) => { m with gasResistance := n }
      | _ => m)
    ⟨0, 0, 0, 0⟩

/-- Fold wire records into the telemetry `variant` oneof: the last submessage
set wins, a malformed submessage fails the whole parse. -/
def buildTelemetry (fs : List (Nat × WireVal)) : Option TelemetryVariant :=
  fs.foldlM
    (fun t f =>
      match f with
      | (2, WireVal.lengthDelim bs) =>
        (scanFields bs).map (fun g => TelemetryVariant.deviceMetrics (buildDeviceMetrics g))
      | (3, WireVal.lengthDelim bs) =>
        (scanFields bs).map (fun g => TelemetryVariant.environmentMetrics (buildEnvironmentMetrics g))
      | _ => some t)
    TelemetryVariant.unset

/-- `telemetry_pb2.Telemetry.ParseFromString` (the `variant` oneof). -/
def parseTelemetry (bs : List Nat) : Option TelemetryVariant :=
  (scanFields bs).bind buildTelemetry

/-- Fold wire records into a `User` record (string fields must be UTF-8). -/
def buildUser (fs : List (Nat × WireVal)) : Option User :=
  fs.foldlM
    (fun u f =>
      match f with
      | (1, WireVal.lengthDelim bs) => (utf8Decode bs).map (fun s => { u with id := s })
      | (2, WireVal.lengthDelim bs) => (utf8Decode bs).map (fun s => { u with longName := s })
      | (3, WireVal.lengthDelim bs) => (utf8Decode bs).map (fun s => { u with shortName := s })
      | _ => some u)
    ⟨"", "", ""⟩

/-- `mesh_pb2.User.ParseFromString`. -/
def parseUser (bs : List Nat) : Option User :=
  (scanFields bs).bind buildUser

/-- Fold wire records into one `Neighbor`. -/
def buildNeighbor (fs : List (Nat × WireVal)) : Neighbor :=
  fs.foldl
    (fun n f =>
      match f with
      | (1, WireVal.varint v) => { n with nodeId := v % 2 ^ 32 }
      | (2, WireVal.fixed32 b) => { n with snr := b }
      | _ => n)
    ⟨0, 0⟩

/-- Fold wire records into the repeated `neighbors = 4` list of
`mesh_pb2.NeighborInfo`. -/
def buildNeighborInfo (fs : List (Nat × WireVal)) : Option (List Neighbor) :=
  fs.foldlM
    (fun ns f =>
      match f with
      | (4, WireVal.lengthDelim bs) =>
        (scanFields bs).map (fun g => ns ++ [buildNeighbor g])
      | _ => some ns)
    []

/-- `mesh_pb2.NeighborInfo.ParseFromString` (the `neighbors` list). -/
def parseNeighborInfo (bs : List Nat) : Option (List Neighbor) :=
  (scanFields bs).bind buildNeighborInfo

/-! ## JSON-ish values and the envelope structures -/

/-- Values appearing in the dicts produced by `proto.py` / `pb_data.py`:
Python ints, floats on the exactly-tracked paths (as rationals), floats that
are only passed through (as IEEE-754 bit patterns), strings, lists and
nested dicts. -/
inductive JVal where
  | jInt (i : Int)
  | jRat (q : ℚ)
  | jF32 (bits : Nat)
  | jStr (s : String)
  | jArr (xs : List JVal)
  | jObj (fs : List (String × JVal))
deriving Repr

/-- The payload oneof of `mesh_pb2.MeshPacket`: unset, a decoded `Data`
submessage, or encrypted bytes. -/
inductive PacketBody where
  | unset
  | decoded (d : PbData)
  | encrypted (bs : List Nat)
deriving Repr, DecidableEq

/-- `mesh_pb2.MeshPacket`, restricted to the fields this integration touches.
The wire fields `from` and `to` are called `fromId` and `toId` here (both are
keywords in Lean; the source likewise works around the Python keyword `from`
with `getattr`/`setattr`).
`rx_snr` is a float carried through unchanged, modelled by its exact value. -/
structure MeshPacket where
  id : Nat
  fromId : Nat
  toId : Nat
  channel : Nat
  hopLimit : Nat
  hopStart : Nat
  rxSnr : ℚ
  rxRssi : Int
  rxTime : Nat
  priority : Nat
  body : PacketBody
deriving Repr

/-- The all-defaults packet protobuf returns when the field is unset. -/
def defaultMeshPacket : MeshPacket :=
  ⟨0, 0, 0, 0, 0, 0, 0, 0, 0, 0, PacketBody.unset⟩

/-- `mqtt_pb2.ServiceEnvelope`. -/
structure ServiceEnvelope where
  packet : Option MeshPacket
  channelId : String
  gatewayId : String
deriving Repr

/-- Reading `packet.decoded` when the oneof holds something else yields the
default `Data` submessage, as protobuf does. -/
def getDecoded : PacketBody → PbData
  | PacketBody.decoded d => d
  | _ => ⟨0, []⟩

/-- Reading `packet.encrypted` when the oneof holds something else yields
empty bytes. -/
def getEncrypted : PacketBody → List Nat
  | PacketBody.encrypted bs => bs
  | _ => []

/-! ## The payload interpreter (`proto.py`) -/

/-- `portnums_pb2` values used in the `_converters` dispatch table. -/
def TEXT_MESSAGE_APP : Nat := 1

def POSITION_APP : Nat := 3

def NODEINFO_APP : Nat := 4

def TELEMETRY_APP : Nat := 67

def NEIGHBORINFO_APP : Nat := 71

/-- The `ground_track` normalisation of `_as_position`: values above 1000 are
taken to be millidegrees and divided by 1000.0, others pass through.  Python's
ints and floats on this path are modelled by their exact rational values. -/
def normGroundTrack (gt : ℚ) : ℚ := if gt > 1000 then gt / 1000 else gt

/-- The `PDOP` normalisation of `_as_position`: values above 50 are taken to
be firmware-scaled (`*10`) and divided by 10.0, others pass through. -/
def normPDOP (val : ℚ) : ℚ := if val > 50 then val / 10 else val

/-- `_as_position`: normalise `ground_track` and `PDOP` and emit the
position dict. -/
def asPosition (obj : Position) : Option String × List (String × JVal) :=
  let groundTrack : ℚ := normGroundTrack (obj.groundTrack : ℚ)
  let pdop : ℚ := normPDOP (obj.pdop : ℚ)
  (some "position",
    [("latitude_i", JVal.jInt obj.latitudeI),
     ("longitude_i", JVal.jInt obj.longitudeI),
     ("altitude", JVal.jInt obj.altitude),
     ("ground_speed", JVal.jInt obj.groundSpeed),
     ("sats_in_view", JVal.jInt obj.satsInView),
     ("precision_bits", JVal.jInt obj.precisionBits),
     ("ground_track", JVal.jRat groundTrack),
     ("PDOP", JVal.jRat pdop)])

/-- `_as_telemetry`: dispatch on `WhichOneof("variant")`; an unknown variant
yields `(None, {})`. -/
def asTelemetry (obj : TelemetryVariant) : Option String × List (String × JVal) :=
  match obj with
  | TelemetryVariant.deviceMetrics m =>
    (some "device_metrics",
      [("battery_level", JVal.jInt m.batteryLevel),
       ("voltage", JVal.jF32 m.voltage),
       ("channel_utilization", JVal.jF32 m.channelUtilization),
       ("air_util_tx", JVal.jF32 m.airUtilTx)])
  | TelemetryVariant.environmentMetrics m =>
    (some "environment_metrics",
      [("temperature", JVal.jF32 m.temperature),
       ("relative_humidity", JVal.jF32 m.relativeHumidity),
       ("barometric_pressure", JVal.jF32 m.barometricPressure),
       ("gas_resistance", JVal.jF32 m.gasResistance)])
  | TelemetryVariant.unset => (none, [])

/-- `_as_node_info`. -/
def asNodeInfo (obj : User) : Option String × List (String × JVal) :=
  (some "nodeinfo",
    [("id", JVal.jStr obj.id),
     ("shortname", JVal.jStr obj.shortName),
     ("longname", JVal.jStr obj.longName)])

/-- `_as_neighbor_info`. -/
def asNeighborInfo (neighbors : List Neighbor) : Option String × List (String × JVal) :=
  (some "neighborinfo",
    [("neighbors",
      JVal.jArr (neighbors.map (fun n =>
        JVal.jObj [("node_id", JVal.jInt n.nodeId), ("snr", JVal.jF32 n.snr)]))),
     ("neighbors_count", JVal.jInt neighbors.length)])

/-- `_as_text_message`: the decoded text plus the envelope's `rx_time`. -/
def asTextMessage (obj : String) (env : ServiceEnvelope) : Option String × List (String × JVal) :=
  (some "text_message",
    [("text", JVal.jStr obj),
     ("rx_time", JVal.jInt (env.packet.getD defaultMeshPacket).rxTime)])

/-- The `_converters` dispatch: decode the payload for a known port number and
normalise it (`none` models a parse exception escaping the converter); an
unknown port yields no type tag and no fields. -/
def convertPort (portnum : Nat) (payload : List Nat) (env : ServiceEnvelope) :
    Option (Option String × List (String × JVal)) :=
  if portnum = POSITION_APP then (parsePosition payload).map asPosition
  else if portnum = TELEMETRY_APP then (parseTelemetry payload).map asTelemetry
  else if portnum = NODEINFO_APP then (parseUser payload).map asNodeInfo
  else if portnum = NEIGHBORINFO_APP then (parseNeighborInfo payload).map asNeighborInfo
  else if portnum = TEXT_MESSAGE_APP then (utf8Decode payload).map (fun s => asTextMessage s env)
  else some (none, [])

/-- `convert_envelope_to_json`: envelope-level metadata, then — when the port
is known, the payload decodes, and the converter returns a type tag and a
non-empty dict — the type tag and the payload fields merged in. -/
def convertEnvelopeToJson (env : ServiceEnvelope) : Option (List (String × JVal)) :=
  let p := env.packet.getD defaultMeshPacket
  let result : List (String × JVal) :=
    [("from", JVal.jInt p.fromId),
     ("rx_snr", JVal.jRat p.rxSnr),
     ("rx_rssi", JVal.jInt p.rxRssi),
     ("hops_taken", JVal.jInt ((p.hopStart : Int) - (p.hopLimit : Int))),
     ("sender", JVal.jStr env.gatewayId),
     ("packet_id", JVal.jInt p.id),
     ("rx_time", JVal.jInt p.rxTime)]
  let d := getDecoded p.body
  match convertPort d.portnum d.payload env with
  | none => none
  | some (type?, payload) =>
    match type? with
    | some t =>
      if payload.isEmpty then some result
      else some (dictMerge (dictSet result "type" (JVal.jStr t)) payload)
    | none => some result

/-! ## Crypto helpers of `proto.py` -/

/-- Default encryption key (used when the channel PSK decodes to the one-byte
sentinel `0x01`, i.e. the PSK `"AQ=="`). -/
def DEFAULT_ENC_KEY : String := "1PG7OiApB1nwvP+rz05pAQ=="

/-- Key derivation shared by `build_encrypted_envelope` and
`try_encrypt_envelope`: base64-decode the PSK (URL-safe characters first
mapped to the standard alphabet); a decoded key of exactly one byte `0x01` is
replaced by the decoded default key.  `none` models a `binascii.Error`. -/
def resolveKey (keyB64 : String) : Option (List Nat) :=
  match b64decode (normalizeKeyB64 keyB64) with
  | none => none
  | some keyBytes =>
    if keyBytes = [0x01] then b64decode DEFAULT_ENC_KEY else some keyBytes

/-- `try_encrypt_envelope`: decrypt the packet's `encrypted` bytes with
AES-CTR under the nonce built from packet id and source id, parse the result
as a `Data` message and store it in the packet's `decoded` field.  `none`
models any exception on the way (bad base64, bad key size, an id too large
for `to_bytes(8, "little")`, or a protobuf `DecodeError`); `packet_receive`
catches those and drops the message. -/
def tryEncryptEnvelope (env : ServiceEnvelope) (keyB64 : String) : Option ServiceEnvelope :=
  match resolveKey keyB64 with
  | none => none
  | some keyBytes =>
    let p := env.packet.getD defaultMeshPacket
    if p.id < 2 ^ 64 ∧ p.fromId < 2 ^ 64 then
      match aesCtrTransform keyBytes (meshNonce p.id p.fromId) (getEncrypted p.body) with
      | none => none
      | some decryptedBytes =>
        match parsePbData decryptedBytes with
        | none => none
        | some d => some { env with packet := some { p with body := PacketBody.decoded d } }
    else none

/-- `mesh_pb2.Data.SerializeToString` for the messages built on the send
path: proto3 skips zero-default fields. -/
def serializeData (d : PbData) : List Nat :=
  (if d.portnum ≠ 0 then 0x08 :: writeVarint d.portnum else []) ++
  (if d.payload ≠ [] then 0x12 :: (writeVarint d.payload.length ++ d.payload) else [])

/-- Python `int()` truncation toward zero, for the
`packet.rx_snr = int(rx_snr)` conversions on the send path. -/
def intTrunc (q : ℚ) : Int := if 0 ≤ q then ⌊q⌋ else ⌈q⌉

/-- `MeshPacket.Priority.HIGH`. -/
def PRIORITY_HIGH : Nat := 100

/-- `build_encrypted_envelope`: wrap `text` in a `Data` message, encrypt it
with AES-CTR, and build the full envelope.  The fresh random 32-bit packet id
(`int.from_bytes(os.urandom(4), "little")`) and the clock (`int(time.time())`)
are passed explicitly as `packetId` and `now`; `channelId`/`gatewayId` are
`""` when absent (protobuf's default), `hops` defaults to 3 and
`rxSnr`/`rxRssi` to 0 at the call sites.  `none` models the broad
`except Exception` of the source (bad base64, bad key size, or a value out of
range for its protobuf field). -/
def buildEncryptedEnvelope (text : String) (fromId toId channel : Nat) (keyB64 : String)
    (channelId gatewayId : String) (hops : Nat) (rxSnr rxRssi : ℚ)
    (packetId now : Nat) : Option ServiceEnvelope :=
  match resolveKey keyB64 with
  | none => none
  | some keyBytes =>
    let plaintext := serializeData ⟨TEXT_MESSAGE_APP, utf8Encode text⟩
    if packetId < 2 ^ 32 ∧ fromId < 2 ^ 32 ∧ toId < 2 ^ 32 ∧ channel < 2 ^ 32 then
      match aesCtrTransform keyBytes (meshNonce packetId fromId) plaintext with
      | none => none
      | some ciphertext =>
        some
          { packet := some
              { id := packetId, fromId := fromId, toId := toId, channel := channel,
                hopLimit := hops, hopStart := hops,
                rxSnr := (intTrunc rxSnr : ℚ), rxRssi := intTrunc rxRssi,
                rxTime := now, priority := PRIORITY_HIGH,
                body := PacketBody.encrypted ciphertext },
            channelId := channelId, gatewayId := gatewayId }
    else none

/-! ## Deduplication cache and the receive/send paths of `pb_data.py`

`seen_ids = TTLCache(maxsize=100, ttl=10)` from `cachetools`: entries live
`ttl` seconds from insertion; membership ignores expired entries; insertion
first expires stale entries and then, at capacity, evicts in insertion order
(the cache is only ever written, never read through, so LRU order is
insertion order).  Time is threaded explicitly as `now` (the cache's monotonic
timer, in seconds). -/

/-- The dedup cache: `(packet id, insertion time)` in insertion order, unique
ids. -/
structure DedupCache where
  entries : List (Nat × Nat)
deriving Repr, DecidableEq

/-- TTL of `seen_ids`, in seconds. -/
def DEDUP_TTL : Nat := 10

/-- Capacity of `seen_ids`. -/
def DEDUP_MAXSIZE : Nat := 100

/-- `packet_id in seen_ids`: present with an unexpired entry
(an entry inserted at `t` is alive while `now < t + ttl`). -/
def cacheMem (now : Nat) (c : DedupCache) (id : Nat) : Bool :=
  c.entries.any (fun e => e.1 = id ∧ now < e.2 + DEDUP_TTL)

/-- `seen_ids[packet_id] = True`: drop expired entries, then insert; at
capacity the oldest surviving entry is evicted first.  An existing live entry
for the same id is refreshed and moved to the end (never reached from
`packet_receive`, which only inserts ids that are not members). -/
def cacheInsert (now id : Nat) (c : DedupCache) : DedupCache :=
  let live := c.entries.filter (fun e => now < e.2 + DEDUP_TTL)
  if live.any (fun e => e.1 = id) then
    ⟨live.filter (fun e => e.1 ≠ id) ++ [(id, now)]⟩
  else if DEDUP_MAXSIZE ≤ live.length then
    ⟨live.drop (live.length + 1 - DEDUP_MAXSIZE) ++ [(id, now)]⟩
  else
    ⟨live ++ [(id, now)]⟩

/-- The admit step of `packet_receive` (`if packet_id in seen_ids: drop` /
`seen_ids[packet_id] = True`), as the spec's `admit(packet_id) -> bool`:
`true` and the id recorded when it was not already present unexpired. -/
def cacheAdmit (now id : Nat) (c : DedupCache) : Bool × DedupCache :=
  if cacheMem now c id then (false, c) else (true, cacheInsert now id c)

/-- `packet_receive` (given an already-parsed envelope): drop empty
envelopes; drop ids that are falsy (0) or already seen, recording fresh ids
*before* any decryption attempt; decrypt if the packet is encrypted, dropping
the message on failure; finally interpret.  Returns the interpreted dict (or
`none` for a dropped message) together with the updated dedup cache. -/
def packetReceive (c : DedupCache) (now : Nat) (env : ServiceEnvelope) (key : String) :
    Option (List (String × JVal)) × DedupCache :=
  match env.packet with
  | none => (none, c)
  | some p =>
    if p.id = 0 ∨ cacheMem now c p.id then (none, c)
    else
      let c2 := cacheInsert now p.id c
      match p.body with
      | PacketBody.encrypted _ =>
        match tryEncryptEnvelope env key with
        | none => (none, c2)
        | some env2 => (convertEnvelopeToJson env2, c2)
      | _ => (convertEnvelopeToJson env, c2)

/-- `packet_send`: the JSON object published on the outbound send topic.
Note the source hardcodes `'channel': 0` and ignores its `channel`
parameter. -/
def packetSend (text : String) (toId gwId : Nat) (channel : Nat) : List (String × JVal) :=
  [("channel", JVal.jInt 0),
   ("to", JVal.jInt toId),
   ("from", JVal.jInt gwId),
   ("type", JVal.jStr "sendtext"),
   ("payload", JVal.jStr text)]

/-! ## Outbound-boundary validation (`helpers.py`, `__init__.py`) -/

/-- A hexadecimal digit, as matched by `[A-Fa-f0-9]`. -/
def isHexDigit (c : Char) : Bool :=
  ('0' ≤ c ∧ c ≤ '9') ∨ ('a' ≤ c ∧ c ≤ 'f') ∨ ('A' ≤ c ∧ c ≤ 'F')

/-- The `_NODE_ID_PATTERN` regex `^![A-Fa-f0-9]{8}$`. -/
def matchesNodeIdPattern (s : String) : Bool :=
  match s.data with
  | c :: rest => c = '!' ∧ rest.length = 8 ∧ rest.all isHexDigit
  | [] => false

/-- How Python prints the offending value in the f-string error messages
(`None` for an absent value, the string itself otherwise). -/
def pyShowOpt : Option String → String
  | none => "None"
  | some s => s

/-- The error message of `validate_meshtastic_id`. -/
def nodeIdErrorMsg (field : String) (value : Option String) : String :=
  field ++ " must be in format !XXXXXXXX (8 hex characters, e.g. !BABACECA). Got: "
    ++ pyShowOpt value

/-- `validate_meshtastic_id`: the value must be a string matching
`^![A-Fa-f0-9]{8}$`; it is returned unchanged, else a `HomeAssistantError`
naming the field and the value is raised. -/
def validateMeshtasticId (value : Option String) (field : String) : Except String String :=
  match value with
  | some s =>
    if matchesNodeIdPattern s then Except.ok s
    else Except.error (nodeIdErrorMsg field value)
  | none => Except.error (nodeIdErrorMsg field value)

/-- The range error message of `validate_channel`. -/
def channelRangeMsg (v : Int) : String :=
  "channel must be between 0 and 6 (got " ++ toString v ++ ")"

/-- `validate_channel` on an integer input: accepted exactly in `0–6`
(non-integer inputs fail earlier at `int(value)` with their own message). -/
def validateChannel (value : Int) : Except String Int :=
  if value < 0 ∨ 6 < value then Except.error (channelRangeMsg value)
  else Except.ok value

/-- The range error message of `validate_hops`. -/
def hopsRangeMsg (v : Int) : String :=
  "hops must be between 1 and 5 (got " ++ toString v ++ ")"

/-- `validate_hops` on an integer input: accepted exactly in `1–5`. -/
def validateHops (value : Int) : Except String Int :=
  if value < 1 ∨ 5 < value then Except.error (hopsRangeMsg value)
  else Except.ok value

/-- Value of a hex digit. -/
def hexDigitVal (c : Char) : Nat :=
  if '0' ≤ c ∧ c ≤ '9' then c.toNat - '0'.toNat
  else if 'a' ≤ c ∧ c ≤ 'f' then c.toNat - 'a'.toNat + 10
  else if 'A' ≤ c ∧ c ≤ 'F' then c.toNat - 'A'.toNat + 10
  else 0

/-- Python `int(s, 16)` on the hex digits of a validated id. -/
def hexVal (cs : List Char) : Nat :=
  cs.foldl (fun a c => a * 16 + hexDigitVal c) 0

/-- `"%08x"`-style rendering of a node id (8 lowercase hex digits). -/
def toHex8 (n : Nat) : String :=
  ⟨(List.range 8).map (fun i =>
    let d := n / 16 ^ (7 - i) % 16
    if d < 10 then Char.ofNat ('0'.toNat + d) else Char.ofNat ('a'.toNat + d - 10))⟩

/-- The data of a `send_packet` service call. -/
structure SendRequest where
  text : Option String
  fromId : Option String
  toId : Option String
  channel : Option Int
deriving Repr

/-- What `handle_send_packet` publishes: the topic and the payload dict. -/
structure PreparedSend where
  topic : String
  payload : List (String × JVal)
deriving Repr

/-- The validation-and-build part of `handle_send_packet`: missing or empty
text fails synchronously; then both ids and the channel (default 0) are
validated; the topic is `<base_topic>/2/json/mqtt/!<from_id as 8 lowercase
hex digits>` and the payload comes from `packet_send`. -/
def handleSendPacket (baseTopic : String) (req : SendRequest) : Except String PreparedSend :=
  match req.text with
  | none => Except.error "Missing required field: text"
  | some t =>
    if t = "" then Except.error "Missing required field: text"
    else
      match validateMeshtasticId req.fromId "from_id" with
      | Except.error e => Except.error e
      | Except.ok fromStr =>
        match validateMeshtasticId req.toId "to_id" with
        | Except.error e => Except.error e
        | Except.ok toStr =>
          let fromId := hexVal (fromStr.data.drop 1)
          let toId := hexVal (toStr.data.drop 1)
          match validateChannel (req.channel.getD 0) with
          | Except.error e => Except.error e
          | Except.ok channel =>
            Except.ok
              { topic := baseTopic ++ "/2/json/mqtt/!" ++ toHex8 fromId,
                payload := packetSend t toId fromId channel.toNat }

/-! ## The merge/debounce aggregator (`coordinator.py`)

`_queue_update` merges a partial per-device dict into `self.latest`, cancels
any running debounce task and starts a new one; `_debounce_commit` sleeps for
the configured delay and then emits a copy of the whole map.  We model the
event loop explicitly: state = the `latest` map plus the fire deadlines of
the outstanding (not yet fired, not cancelled) debounce tasks; a timed trace
of merges is processed in order, firing any task whose deadline has passed
before handling the next merge, and any still-outstanding task fires once
the trace goes quiet.  Time is in milliseconds; the delay is
`debounce_ms`. -/

/-- A per-device field map (the value type is abstract: the coordinator never
inspects the values, it only merges dicts). -/
abbrev FieldMap (α : Type) := List (String × α)

/-- `self.latest`: device id → merged fields. -/
abbrev DeviceMap (α : Type) := List (String × FieldMap α)

/-- Aggregator state: the running map and the deadlines of outstanding
debounce tasks (the code keeps at most one, which the theorems confirm). -/
structure AggState (α : Type) where
  latest : DeviceMap α
  pending : List Nat
deriving Repr

/-- The merge of `_queue_update`:
`self.latest[node_id] = {**self.latest.get(node_id, {}), **new_data}`. -/
def mergeDevice {α : Type} (m : DeviceMap α) (nodeId : String) (newData : FieldMap α) :
    DeviceMap α :=
  dictSet m nodeId (dictMerge ((dictLookup m nodeId).getD []) newData)

/-- Cancel any running debounce task
(`if self._debounce_task and not self._debounce_task.done(): cancel()`). -/
def cancelPending {α : Type} (s : AggState α) : AggState α :=
  { s with pending := [] }

/-- Start a new `_debounce_commit` task at time `t`: it will fire at
`t + delay` unless cancelled. -/
def schedulePending {α : Type} (delay t : Nat) (s : AggState α) : AggState α :=
  { s with pending := s.pending ++ [t + delay] }

/-- `_queue_update` at time `t`: merge, cancel, reschedule. -/
def queueUpdate {α : Type} (delay t : Nat) (nodeId : String) (newData : FieldMap α)
    (s : AggState α) : AggState α :=
  schedulePending delay t
    (cancelPending { s with latest := mergeDevice s.latest nodeId newData })

/-- Let the event loop run until time `t`: every outstanding task whose
deadline has been reached fires, emitting a snapshot (a copy of the whole
map) and ceasing to be outstanding. -/
def fireDue {α : Type} (t : Nat) (s : AggState α) : AggState α × List (DeviceMap α) :=
  ({ s with pending := s.pending.filter (fun d => ¬ d ≤ t) },
   (s.pending.filter (fun d => d ≤ t)).map (fun _ => s.latest))

/-- One timed merge event: `(arrival time, device id, partial fields)`. -/
abbrev MergeEvent (α : Type) := Nat × String × FieldMap α

/-- Process a list of timed merges in order, collecting every emitted
snapshot. -/
def runMerges {α : Type} (delay : Nat) : AggState α → List (MergeEvent α) →
    AggState α × List (DeviceMap α)
  | s, [] => (s, [])
  | s, (t, d, f) :: rest =>
    let fired := fireDue t s
    let s2 := queueUpdate delay t d f fired.1
    let res := runMerges delay s2 rest
    (res.1, fired.2 ++ res.2)

/-- A whole burst: process the merges, then let the loop run quiet until
`tEnd`. -/
def runBurst {α : Type} (delay : Nat) (s0 : AggState α) (ms : List (MergeEvent α))
    (tEnd : Nat) : AggState α × List (DeviceMap α) :=
  let r := runMerges delay s0 ms
  let fin := fireDue tEnd r.1
  (fin.1, r.2 ++ fin.2)

/-- The timing hypothesis of the debounce claim: events are in order and each
arrives strictly within `delay` of its predecessor (`prev` is the previous
arrival). -/
def gapsOk {α : Type} (delay : Nat) : Nat → List (MergeEvent α) → Bool
  | _, [] => true
  | prev, (t, _, _) :: rest => prev ≤ t ∧ t < prev + delay ∧ gapsOk delay t rest

/-- The device-state map after applying a list of merges in order (what the
debounced snapshot should contain). -/
def applyMerges {α : Type} (m : DeviceMap α) (ms : List (MergeEvent α)) : DeviceMap α :=
  ms.foldl (fun acc e => mergeDevice acc e.2.1 e.2.2) m

/-- Field-level view of a device map. -/
def devFieldLookup {α : Type} (m : DeviceMap α) (d k : String) : Option α :=
  (dictLookup m d).bind (fun f => dictLookup f k)

/-- The claim's reading of the burst result, built from its words rather than
from the code: for each device and field, the last value merged for that pair
during the burst, or the initial value if the burst never touched it. -/
def lastMergedValue {α : Type} (init : Option α) (d k : String)
    (ms : List (MergeEvent α)) : Option α :=
  ms.foldl
    (fun acc e =>
      if e.2.1 = d then
        match dictLookup e.2.2 k with
        | some v => some v
        | none => acc
      else acc)
    init

/-- The time of the last event of a trace (or `t0` for an empty trace). -/
def lastTime {α : Type} (t0 : Nat) (ms : List (MergeEvent α)) : Nat :=
  ms.foldl (fun _ e => e.1) t0

/-- The claim's reading of a valid outbound device identifier: the character
`!` followed by exactly 8 hexadecimal digits (either case). -/
def validIdSpec (s : String) : Prop :=
  s.data.length = 9 ∧ s.data.take 1 = ['!'] ∧ ∀ c ∈ s.data.drop 1, isHexDigit c = true

/-! ## Theorems

First the supporting lemmas (dictionary lookups, cipher lengths, the debounce
run lemma), then one theorem per specification claim, each followed by the
witness instance that exercises it on concrete inputs. -/

theorem dictLookup_dictSet {α : Type} (m : List (String × α)) (k : String) (v : α) (q : String) :
    dictLookup (dictSet m k v) q = if k = q then some v else dictLookup m q := by
  induction m with
  | nil =>
    by_cases h : k = q <;> simp [dictSet, dictLookup, h]
  | cons e m ih =>
    simp only [dictSet]
    by_cases he : e.1 = k
    · by_cases hq : k = q <;> simp [dictLookup, he, hq]
    · simp only [if_neg he]
      by_cases heq : e.1 = q
      · have hq : ¬ k = q := fun h => he (heq.trans h.symm)
        simp [dictLookup, heq, hq]
      · simp [dictLookup, heq, ih]

theorem dictLookup_eq_none_iff {α : Type} (m : List (String × α)) (k : String) :
    dictLookup m k = none ↔ ∀ e ∈ m, e.1 ≠ k := by
  induction m with
  | nil => simp [dictLookup]
  | cons e m ih =>
    by_cases he : e.1 = k <;> simp [dictLookup, he, ih]

theorem dictLookup_dictMerge {α : Type} (b : List (String × α)) (a : List (String × α))
    (k : String) (hb : (b.map Prod.fst).Nodup) :
    dictLookup (dictMerge a b) k =
      match dictLookup b k with
      | some v => some v
      | none => dictLookup a k := by
  induction b generalizing a with
  | nil => simp [dictMerge, dictLookup]
  | cons e b ih =>
    simp only [List.map_cons, List.nodup_cons] at hb
    have hstep : dictMerge a (e :: b) = dictMerge (dictSet a e.1 e.2) b := rfl
    rw [hstep, ih _ hb.2]
    by_cases hek : e.1 = k
    · have hbk : dictLookup b k = none := by
        rw [dictLookup_eq_none_iff]
        intro x hx hxk
        exact hb.1 (by rw [← hek] at hxk; exact hxk ▸ List.mem_map_of_mem Prod.fst hx)
      simp [hbk, dictLookup, hek, dictLookup_dictSet]
    · cases hbk : dictLookup b k with
      | some v => simp [dictLookup, hek, hbk]
      | none => simp [dictLookup, hek, hbk, dictLookup_dictSet]

theorem devFieldLookup_mergeDevice {α : Type} (m : DeviceMap α) (d' : String) (f : FieldMap α)
    (d k : String) (hf : (f.map Prod.fst).Nodup) :
    devFieldLookup (mergeDevice m d' f) d k =
      if d' = d then
        match dictLookup f k with
        | some v => some v
        | none => devFieldLookup m d k
      else devFieldLookup m d k := by
  unfold devFieldLookup mergeDevice
  rw [dictLookup_dictSet]
  by_cases hd : d' = d
  · subst hd
    rw [if_pos rfl, if_pos rfl]
    simp only [Option.some_bind]
    rw [dictLookup_dictMerge _ _ _ hf]
    cases hfk : dictLookup f k with
    | some v => simp
    | none =>
      cases hm : dictLookup m d' with
      | some fm => simp [hm]
      | none => simp [hm, dictLookup]
  · simp [hd]

theorem applyMerges_lookup {α : Type} (ms : List (MergeEvent α)) (m : DeviceMap α)
    (d k : String) (h : ∀ e ∈ ms, ((e.2.2.map Prod.fst).Nodup)) :
    devFieldLookup (applyMerges m ms) d k =
      lastMergedValue (devFieldLookup m d k) d k ms := by
  induction ms generalizing m with
  | nil => rfl
  | cons e rest ih =>
    have hstep : applyMerges m (e :: rest) = applyMerges (mergeDevice m e.2.1 e.2.2) rest := rfl
    rw [hstep, ih _ (fun x hx => h x (List.mem_cons_of_mem _ hx))]
    have hlast : ∀ init, lastMergedValue init d k (e :: rest) =
        lastMergedValue
          (if e.2.1 = d then
            match dictLookup e.2.2 k with
            | some v => some v
            | none => init
          else init) d k rest := fun _ => rfl
    rw [hlast]
    rw [devFieldLookup_mergeDevice _ _ _ _ _ (h e (List.mem_cons_self _ _))]

theorem gapsOk_take {α : Type} (delay : Nat) :
    ∀ (ms : List (MergeEvent α)) (n prev : Nat),
      gapsOk delay prev ms = true → gapsOk delay prev (ms.take n) = true := by
  intro ms
  induction ms with
  | nil => intro n prev _; simp [gapsOk]
  | cons e rest ih =>
    intro n prev h
    cases n with
    | zero => simp [gapsOk]
    | succ n =>
      obtain ⟨t, d, f⟩ := e
      simp only [gapsOk, Bool.decide_and, Bool.and_eq_true, decide_eq_true_eq] at h ⊢
      exact ⟨h.1, h.2.1, ih n t h.2.2⟩

theorem runMerges_busy {α : Type} (delay : Nat) :
    ∀ (ms : List (MergeEvent α)) (s : AggState α) (t0 : Nat),
      s.pending = [t0 + delay] → gapsOk delay t0 ms = true →
      runMerges delay s ms =
        (⟨applyMerges s.latest ms, [lastTime t0 ms + delay]⟩, []) := by
  intro ms
  induction ms with
  | nil =>
    intro s t0 hp _
    obtain ⟨L, P⟩ := s
    simp only at hp
    subst hp
    rfl
  | cons e rest ih =>
    intro s t0 hp h
    obtain ⟨t, d, f⟩ := e
    obtain ⟨L, P⟩ := s
    simp only at hp
    subst hp
    simp only [gapsOk, Bool.decide_and, Bool.and_eq_true, decide_eq_true_eq] at h
    obtain ⟨hle, hlt, hrest⟩ := h
    have hnd : ¬ t0 + delay ≤ t := by omega
    have hfire : fireDue t (⟨L, [t0 + delay]⟩ : AggState α) =
        (⟨L, [t0 + delay]⟩, []) := by
      unfold fireDue
      simp [hnd, hlt]
    show (let fired := fireDue t (⟨L, [t0 + delay]⟩ : AggState α)
          let s2 := queueUpdate delay t d f fired.1
          let res := runMerges delay s2 rest
          (res.1, fired.2 ++ res.2)) = _
    rw [hfire]
    simp only
    have hq : queueUpdate delay t d f (⟨L, [t0 + delay]⟩ : AggState α) =
        ⟨mergeDevice L d f, [t + delay]⟩ := rfl
    rw [hq, ih ⟨mergeDevice L d f, [t + delay]⟩ t rfl hrest]
    rfl

/-- C2 — **Debounce coalescing** (`coordinator.py`, `_queue_update` and
`_debounce_commit`): for any burst of one or more merges in which each merge
arrives strictly within the configured delay of its predecessor, started from
an idle aggregator, (a) the burst emits exactly one snapshot, observed only at
the end of a quiet period of the full delay, and that snapshot is the whole
device-state map with every merge applied; (b) the aggregator is idle again
afterwards; (c) after each merge at most one debounce task is outstanding
(each merge cancelled the previous task before scheduling its own); (d) for
every device and field, the emitted map holds the union of all merged fields
with later values overriding earlier ones for the same key. -/
theorem debounce_single_emission (α : Type) (delay : Nat) (L0 : DeviceMap α)
    (t1 : Nat) (d1 : String) (f1 : FieldMap α) (rest : List (MergeEvent α)) (tEnd : Nat)
    (hgaps : gapsOk delay t1 rest = true)
    (hquiet : lastTime t1 rest + delay ≤ tEnd)
    (hkeys : ∀ e ∈ (t1, d1, f1) :: rest, ((e.2.2.map Prod.fst).Nodup)) :
    (runBurst delay ⟨L0, []⟩ ((t1, d1, f1) :: rest) tEnd).2 =
      [applyMerges L0 ((t1, d1, f1) :: rest)] ∧
    (runBurst delay ⟨L0, []⟩ ((t1, d1, f1) :: rest) tEnd).1.pending = [] ∧
    (∀ n, (runMerges delay ⟨L0, []⟩ (((t1, d1, f1) :: rest).take n)).1.pending.length ≤ 1) ∧
    (∀ d k, devFieldLookup (applyMerges L0 ((t1, d1, f1) :: rest)) d k =
      lastMergedValue (devFieldLookup L0 d k) d k ((t1, d1, f1) :: rest)) := by
  have hfirst : ∀ (ms2 : List (MergeEvent α)), gapsOk delay t1 ms2 = true →
      runMerges delay ⟨L0, []⟩ ((t1, d1, f1) :: ms2) =
        (⟨applyMerges L0 ((t1, d1, f1) :: ms2), [lastTime t1 ms2 + delay]⟩, []) := by
    intro ms2 h2
    show (let fired := fireDue t1 (⟨L0, []⟩ : AggState α)
          let s2 := queueUpdate delay t1 d1 f1 fired.1
          let res := runMerges delay s2 ms2
          (res.1, fired.2 ++ res.2)) = _
    have hfire : fireDue t1 (⟨L0, []⟩ : AggState α) = (⟨L0, []⟩, []) := by
      unfold fireDue
      simp
    rw [hfire]
    simp only
    have hq : queueUpdate delay t1 d1 f1 (⟨L0, []⟩ : AggState α) =
        ⟨mergeDevice L0 d1 f1, [t1 + delay]⟩ := rfl
    rw [hq, runMerges_busy delay ms2 ⟨mergeDevice L0 d1 f1, [t1 + delay]⟩ t1 rfl h2]
    rfl
  have hrun := hfirst rest hgaps
  constructor
  · unfold runBurst
    rw [hrun]
    simp only
    unfold fireDue
    simp [hquiet]
  constructor
  · unfold runBurst
    rw [hrun]
    simp only
    unfold fireDue
    simp [hquiet]
  constructor
  · intro n
    cases n with
    | zero => simp [runMerges]
    | succ n =>
      rw [List.take_succ_cons]
      rw [hfirst (rest.take n) (gapsOk_take delay rest n t1 hgaps)]
      simp
  · intro d k
    exact applyMerges_lookup _ _ _ _ hkeys

/-- Witness for C2: a concrete three-merge burst (delay 500 ms, merges at 0,
300 and 500 ms, quiet until 1000 ms) emits exactly one full snapshot, keeps at
most one task outstanding, and merges fields with later values winning. -/
theorem debounce_single_emission_witness :
    (runBurst 500 ⟨[], []⟩
      [(0, "!a", [("x", "1")]), (300, "!a", [("x", "2"), ("y", "3")]), (500, "!b", [("z", "4")])]
      1000).2 =
      [applyMerges ([] : DeviceMap String)
        [(0, "!a", [("x", "1")]), (300, "!a", [("x", "2"), ("y", "3")]),
         (500, "!b", [("z", "4")])]] ∧
    (runMerges 500 (⟨[], []⟩ : AggState String)
      ([(0, "!a", [("x", "1")]), (300, "!a", [("x", "2"), ("y", "3")]),
        (500, "!b", [("z", "4")])].take 2)).1.pending.length ≤ 1 ∧
    devFieldLookup (applyMerges ([] : DeviceMap String)
      [(0, "!a", [("x", "1")]), (300, "!a", [("x", "2"), ("y", "3")]),
       (500, "!b", [("z", "4")])]) "!a" "x" =
      lastMergedValue (devFieldLookup ([] : DeviceMap String) "!a" "x") "!a" "x"
        [(0, "!a", [("x", "1")]), (300, "!a", [("x", "2"), ("y", "3")]),
         (500, "!b", [("z", "4")])] := by
  have h := debounce_single_emission String 500 [] 0 "!a" [("x", "1")]
    [(300, "!a", [("x", "2"), ("y", "3")]), (500, "!b", [("z", "4")])] 1000
    (by decide) (by decide) (by decide)
  exact ⟨h.1, h.2.2.1 2, h.2.2.2 "!a" "x"⟩

/-- C4 — evidence for the send-payload claim: `packet_send` builds the JSON
object with `"channel"` hardcoded to `0`, ignoring its `channel` parameter,
so a request with validated channel 3 is published with channel 0 (the
remaining fields `to`, `from`, `type`, `payload` are as claimed). -/
theorem packet_send_hardcodes_channel_zero :
    (∀ (t : String) (toId gwId ch : Nat),
      packetSend t toId gwId ch =
        [("channel", JVal.jInt 0), ("to", JVal.jInt toId), ("from", JVal.jInt gwId),
         ("type", JVal.jStr "sendtext"), ("payload", JVal.jStr t)]) ∧
    dictLookup (packetSend "hi" 0xFFFFFFFF 0xBABACECA 3) "channel" = some (JVal.jInt 0) :=
  ⟨fun _ _ _ _ => rfl, rfl⟩

/-- C6 — **Field normalization** (`_as_position` in `proto.py`): the emitted
`ground_track` is the raw value divided by 1000.0 exactly when the raw value
exceeds 1000 and is unchanged otherwise, and the emitted `PDOP` is the raw
value divided by 10.0 exactly when it exceeds 50 and is unchanged otherwise;
in particular 1500 ↦ 1.5, 45 ↦ 45, 297 ↦ 29.7 and 3.2 ↦ 3.2. -/
theorem position_field_normalization :
    (∀ p : Position,
      dictLookup (asPosition p).2 "ground_track" =
        some (JVal.jRat (normGroundTrack p.groundTrack)) ∧
      dictLookup (asPosition p).2 "PDOP" = some (JVal.jRat (normPDOP p.pdop))) ∧
    (∀ v : ℚ, normGroundTrack v = if 1000 < v then v / 1000 else v) ∧
    (∀ v : ℚ, normPDOP v = if 50 < v then v / 10 else v) ∧
    normGroundTrack 1500 = 3 / 2 ∧ normGroundTrack 45 = 45 ∧
    normPDOP 297 = 297 / 10 ∧ normPDOP (16 / 5) = 16 / 5 := by
  refine ⟨fun p => ⟨?_, ?_⟩, fun v => rfl, fun v => rfl, ?_, ?_, ?_, ?_⟩
  · rfl
  · rfl
  · norm_num [normGroundTrack]
  · norm_num [normGroundTrack]
  · norm_num [normPDOP]
  · norm_num [normPDOP]

/-- C10 — a received envelope with no packet or with packet id 0 is dropped
before anything happens: no dedup recording, no decryption, no
interpretation, and this on every arrival (id 0 is invalid, not a
duplicate). -/
theorem packet_id_zero_dropped (c : DedupCache) (now : Nat) (env : ServiceEnvelope)
    (key : String)
    (h : env.packet = none ∨ ∃ p, env.packet = some p ∧ p.id = 0) :
    packetReceive c now env key = (none, c) := by
  rcases h with h | ⟨p, hp, hid⟩
  · unfold packetReceive
    rw [h]
  · unfold packetReceive
    rw [hp]
    simp [hid]

/-- Witness for C10: a first-arrival packet with id 0 is dropped and the
cache is untouched. -/
theorem packet_id_zero_dropped_witness :
    packetReceive ⟨[(7, 0)]⟩ 5
      ⟨some ⟨0, 1, 2, 0, 0, 0, 0, 0, 0, 0, PacketBody.decoded ⟨1, [104]⟩⟩, "", "gw"⟩ "AQ==" =
      (none, ⟨[(7, 0)]⟩) :=
  packet_id_zero_dropped _ _ _ _ (Or.inr ⟨_, rfl, rfl⟩)

/-- C7 — an envelope whose decoded port number is not in the `_converters`
dispatch table interprets without failing, into exactly the envelope-level
metadata `from`, `rx_snr`, `rx_rssi`, `hops_taken`, `sender`, `packet_id`,
`rx_time` (with `hops_taken = hop_start − hop_limit`), and nothing else: no
`type` tag, no payload-derived fields. -/
theorem unknown_port_yields_metadata_only (gw cid : String) (p : MeshPacket) (d : PbData)
    (hb : p.body = PacketBody.decoded d)
    (hpn : d.portnum ∉
      [TEXT_MESSAGE_APP, POSITION_APP, NODEINFO_APP, TELEMETRY_APP, NEIGHBORINFO_APP]) :
    convertEnvelopeToJson ⟨some p, cid, gw⟩ = some
      [("from", JVal.jInt p.fromId),
       ("rx_snr", JVal.jRat p.rxSnr),
       ("rx_rssi", JVal.jInt p.rxRssi),
       ("hops_taken", JVal.jInt ((p.hopStart : Int) - (p.hopLimit : Int))),
       ("sender", JVal.jStr gw),
       ("packet_id", JVal.jInt p.id),
       ("rx_time", JVal.jInt p.rxTime)] := by
  simp only [List.mem_cons, List.not_mem_nil, or_false, not_or] at hpn
  obtain ⟨h1, h3, h4, h67, h71⟩ := hpn
  unfold convertEnvelopeToJson
  simp only [Option.getD_some]
  rw [hb]
  unfold getDecoded convertPort
  rw [if_neg h3, if_neg h67, if_neg h4, if_neg h71, if_neg h1]

/-- Witness for C7: a packet on port 42 yields the metadata-only record, with
`hops_taken = 3 − 1 = 2`. -/
theorem unknown_port_yields_metadata_only_witness :
    convertEnvelopeToJson
      ⟨some ⟨5, 7, 1, 0, 1, 3, 0, 0, 99, 0, PacketBody.decoded ⟨42, [1, 2, 3]⟩⟩, "", "gw"⟩ =
      some
        [("from", JVal.jInt 7), ("rx_snr", JVal.jRat 0), ("rx_rssi", JVal.jInt 0),
         ("hops_taken", JVal.jInt 2), ("sender", JVal.jStr "gw"), ("packet_id", JVal.jInt 5),
         ("rx_time", JVal.jInt 99)] := by
  have h := unknown_port_yields_metadata_only "gw" ""
    ⟨5, 7, 1, 0, 1, 3, 0, 0, 99, 0, PacketBody.decoded ⟨42, [1, 2, 3]⟩⟩
    ⟨42, [1, 2, 3]⟩ rfl (by decide)
  exact h

theorem matchesNodeIdPattern_iff (s : String) :
    matchesNodeIdPattern s = true ↔ validIdSpec s := by
  unfold matchesNodeIdPattern validIdSpec
  cases hd : s.data with
  | nil => simp
  | cons c rest =>
    simp only [List.length_cons, List.take_succ_cons, List.take_zero, List.drop_succ_cons,
      List.drop_zero, List.all_eq_true, Bool.decide_and, Bool.and_eq_true, decide_eq_true_eq]
    constructor
    · rintro ⟨hc, hlen, hhex⟩
      exact ⟨by omega, by simp [hc], hhex⟩
    · rintro ⟨hlen, hc, hhex⟩
      refine ⟨by simpa using hc, by omega, hhex⟩

/-- C8 — outbound-boundary validation: a device identifier is accepted (and
returned unchanged) exactly when it is `!` followed by 8 hex digits of either
case, otherwise the raised error names the field and the value; a channel is
accepted exactly in 0–6 and a hop count exactly in 1–5, otherwise the error
names the value; a send request with missing or empty text fails
synchronously with an explicit error. -/
theorem outbound_validation_spec :
    (∀ s f, validateMeshtasticId (some s) f = Except.ok s ↔ validIdSpec s) ∧
    (∀ s f, matchesNodeIdPattern s = false →
      validateMeshtasticId (some s) f = Except.error (nodeIdErrorMsg f (some s))) ∧
    (∀ f, validateMeshtasticId none f = Except.error (nodeIdErrorMsg f none)) ∧
    (∀ c : Int, validateChannel c =
      if 0 ≤ c ∧ c ≤ 6 then Except.ok c else Except.error (channelRangeMsg c)) ∧
    (∀ h : Int, validateHops h =
      if 1 ≤ h ∧ h ≤ 5 then Except.ok h else Except.error (hopsRangeMsg h)) ∧
    (∀ bt req, (req.text = none ∨ req.text = some "") →
      handleSendPacket bt req = Except.error "Missing required field: text") := by
  refine ⟨fun s f => ?_, fun s f h => ?_, fun f => rfl, fun c => ?_, fun h => ?_,
    fun bt req h => ?_⟩
  · rw [← matchesNodeIdPattern_iff]
    unfold validateMeshtasticId
    by_cases hm : matchesNodeIdPattern s = true <;> simp [hm]
  · unfold validateMeshtasticId
    simp [h]
  · unfold validateChannel
    by_cases hc : 0 ≤ c ∧ c ≤ 6
    · rw [if_neg (by omega), if_pos hc]
    · rw [if_pos (by omega), if_neg hc]
  · unfold validateHops
    by_cases hh : 1 ≤ h ∧ h ≤ 5
    · rw [if_neg (by omega), if_pos hh]
    · rw [if_pos (by omega), if_neg hh]
  · rcases h with h | h
    · unfold handleSendPacket
      rw [h]
    · unfold handleSendPacket
      rw [h]
      simp

/-- Witness for C8: `!BABACECA` is accepted and returned unchanged, channel 7
is rejected, and a request without text fails with the explicit message. -/
theorem outbound_validation_spec_witness :
    validateMeshtasticId (some "!BABACECA") "from_id" = Except.ok "!BABACECA" ∧
    validateChannel 7 =
      (if (0 : Int) ≤ 7 ∧ (7 : Int) ≤ 6 then Except.ok 7
       else Except.error (channelRangeMsg 7)) ∧
    handleSendPacket "msh/EU_868" ⟨none, none, none, none⟩ =
      Except.error "Missing required field: text" := by
  refine ⟨?_, ?_, ?_⟩
  · refine (outbound_validation_spec.1 "!BABACECA" "from_id").mpr ?_
    unfold validIdSpec
    decide
  · exact outbound_validation_spec.2.2.2.1 7
  · exact outbound_validation_spec.2.2.2.2.2 "msh/EU_868" _ (Or.inl rfl)

theorem cacheInsert_mem_self (now id : Nat) (c : DedupCache) :
    (id, now) ∈ (cacheInsert now id c).entries := by
  unfold cacheInsert
  dsimp only
  split_ifs <;> simp

theorem cacheMem_false_filter (c : DedupCache) (now id : Nat)
    (h : cacheMem now c id = false) :
    (c.entries.filter (fun e => now < e.2 + DEDUP_TTL)).any (fun e => e.1 = id) = false := by
  by_contra hne
  rw [Bool.not_eq_false, List.any_eq_true] at hne
  obtain ⟨e, he, hid⟩ := hne
  rw [List.mem_filter] at he
  have hmem : cacheMem now c id = true := by
    rw [cacheMem, List.any_eq_true]
    refine ⟨e, he.1, ?_⟩
    simp only [decide_eq_true_eq] at hid ⊢
    exact ⟨hid, by simpa using he.2⟩
  rw [hmem] at h
  cases h

theorem cacheInsert_id_time (c : DedupCache) (now id : Nat)
    (h : cacheMem now c id = false) :
    ∀ e ∈ (cacheInsert now id c).entries, e.1 = id → e.2 = now := by
  have hf := cacheMem_false_filter c now id h
  intro e he hid
  unfold cacheInsert at he
  simp only [hf, Bool.false_eq_true, if_false] at he
  have hlive : ∀ x ∈ c.entries.filter (fun e => now < e.2 + DEDUP_TTL), ¬ x.1 = id := by
    intro x hx
    have := List.any_eq_false.mp hf x hx
    simpa using this
  split_ifs at he with hcap
  · rcases List.mem_append.mp he with hl | hr
    · exact absurd hid (hlive e (List.mem_of_mem_drop hl))
    · simp only [List.mem_singleton] at hr
      rw [hr]
  · rcases List.mem_append.mp he with hl | hr
    · exact absurd hid (hlive e hl)
    · simp only [List.mem_singleton] at hr
      rw [hr]

theorem cacheMem_insert_within (c : DedupCache) (now now2 id : Nat)
    (h2 : now2 < now + DEDUP_TTL) :
    cacheMem now2 (cacheInsert now id c) id = true := by
  rw [cacheMem, List.any_eq_true]
  exact ⟨(id, now), cacheInsert_mem_self now id c, by simp [h2]⟩

theorem cacheMem_insert_after (c : DedupCache) (now now2 id : Nat)
    (h : cacheMem now c id = false) (h2 : now + DEDUP_TTL ≤ now2) :
    cacheMem now2 (cacheInsert now id c) id = false := by
  by_contra hne
  rw [Bool.not_eq_false, cacheMem, List.any_eq_true] at hne
  obtain ⟨e, he, hp⟩ := hne
  simp only [decide_eq_true_eq] at hp
  have ht := cacheInsert_id_time c now id h e he hp.1
  omega

/-- C3 — the deduplication cache (`seen_ids = TTLCache(maxsize=100, ttl=10)`
used by `packet_receive`): admitting an id that is not present unexpired
returns true and records it; an id present and less than `DEDUP_TTL` seconds
old is rejected; once the TTL has elapsed the same id is accepted again; the
cache never grows beyond `DEDUP_MAXSIZE` entries, and when a fresh id arrives
with the cache at capacity the least-recently-inserted (oldest) surviving
entry is evicted. -/
theorem dedup_admit_spec :
    (∀ (c : DedupCache) (now id : Nat), cacheMem now c id = false →
      cacheAdmit now id c = (true, cacheInsert now id c) ∧
      cacheMem now (cacheInsert now id c) id = true) ∧
    (∀ (c : DedupCache) (now id : Nat), cacheMem now c id = true →
      cacheAdmit now id c = (false, c)) ∧
    (∀ (c : DedupCache) (now later id : Nat), cacheMem now c id = false →
      now + DEDUP_TTL ≤ later →
      (cacheAdmit later id (cacheAdmit now id c).2).1 = true) ∧
    (∀ (c : DedupCache) (now id : Nat), c.entries.length ≤ DEDUP_MAXSIZE →
      ((cacheAdmit now id c).2).entries.length ≤ DEDUP_MAXSIZE) ∧
    (∀ (c : DedupCache) (now id : Nat), cacheMem now c id = false →
      (c.entries.filter (fun e => now < e.2 + DEDUP_TTL)).length = DEDUP_MAXSIZE →
      ((cacheAdmit now id c).2).entries =
        (c.entries.filter (fun e => now < e.2 + DEDUP_TTL)).drop 1 ++ [(id, now)]) := by
  refine ⟨fun c now id h => ?_, fun c now id h => ?_, fun c now later id h hl => ?_,
    fun c now id h => ?_, fun c now id h hlen => ?_⟩
  · exact ⟨by simp [cacheAdmit, h],
      cacheMem_insert_within c now now id (Nat.lt_add_of_pos_right (by decide))⟩
  · simp [cacheAdmit, h]
  · have hsnd : (cacheAdmit now id c).2 = cacheInsert now id c := by simp [cacheAdmit, h]
    rw [hsnd]
    have hafter := cacheMem_insert_after c now later id h hl
    simp [cacheAdmit, hafter]
  · unfold cacheAdmit
    split_ifs with hmem
    · exact h
    · unfold cacheInsert
      dsimp only
      have hfl : (c.entries.filter (fun e => now < e.2 + DEDUP_TTL)).length ≤
          c.entries.length := List.length_filter_le _ _
      split_ifs with hany hcap
      · simp only [List.length_append, List.length_cons, List.length_nil]
        have hex : ∃ x ∈ c.entries.filter (fun e => now < e.2 + DEDUP_TTL),
            ¬ (fun e => decide (e.1 ≠ id)) x = true := by
          rw [List.any_eq_true] at hany
          obtain ⟨x, hx, hpx⟩ := hany
          exact ⟨x, hx, by simpa using hpx⟩
        have := List.length_filter_lt_length_iff_exists.mpr hex
        omega
      · simp only [List.length_append, List.length_cons, List.length_nil, List.length_drop]
        simp only [DEDUP_MAXSIZE] at hcap ⊢
        omega
      · simp only [List.length_append, List.length_cons, List.length_nil]
        omega
  · have hf := cacheMem_false_filter c now id h
    unfold cacheAdmit
    rw [if_neg (by simp [h])]
    unfold cacheInsert
    simp only [hf, Bool.false_eq_true, if_false]
    rw [if_pos (by omega)]
    rw [hlen]
    rfl

/-- Witness for C3: a fresh id 5 is admitted and recorded; 3 seconds later it
is rejected; 10 seconds later it is admitted again; inserting into a
one-entry cache keeps the size within capacity. -/
theorem dedup_admit_spec_witness :
    cacheAdmit 0 5 ⟨[]⟩ = (true, cacheInsert 0 5 ⟨[]⟩) ∧
    cacheMem 0 (cacheInsert 0 5 ⟨[]⟩) 5 = true ∧
    cacheAdmit 3 5 ⟨[(5, 0)]⟩ = (false, ⟨[(5, 0)]⟩) ∧
    (cacheAdmit 10 5 (cacheAdmit 0 5 ⟨[]⟩).2).1 = true ∧
    ((cacheAdmit 4 9 ⟨[(5, 0)]⟩).2).entries.length ≤ DEDUP_MAXSIZE := by
  obtain ⟨h1, h2, h3, h4, _⟩ := dedup_admit_spec
  exact ⟨(h1 ⟨[]⟩ 0 5 (by decide)).1, (h1 ⟨[]⟩ 0 5 (by decide)).2,
    h2 ⟨[(5, 0)]⟩ 3 5 (by decide), h3 ⟨[]⟩ 0 10 5 (by decide) (by decide),
    h4 ⟨[(5, 0)]⟩ 4 9 (by decide)⟩

theorem packetReceive_records (c : DedupCache) (now : Nat) (env : ServiceEnvelope)
    (p : MeshPacket) (key : String) (hp : env.packet = some p) (hid : p.id ≠ 0)
    (hmem : cacheMem now c p.id = false) :
    (packetReceive c now env key).2 = cacheInsert now p.id c := by
  unfold packetReceive
  rw [hp]
  dsimp only
  rw [if_neg (by simp [hid, hmem])]
  cases p.body with
  | unset => rfl
  | decoded d => rfl
  | encrypted bs =>
    dsimp only
    cases tryEncryptEnvelope env key <;> rfl

theorem packetReceive_duplicate (c : DedupCache) (now : Nat) (env : ServiceEnvelope)
    (p : MeshPacket) (key : String) (hp : env.packet = some p)
    (hmem : cacheMem now c p.id = true) :
    packetReceive c now env key = (none, c) := by
  unfold packetReceive
  rw [hp]
  dsimp only
  rw [if_pos (Or.inr hmem)]

/-- C9 — `packet_receive` records a fresh non-zero packet id in the dedup
cache *before* attempting decryption: after any first delivery (including one
whose decryption fails and is dropped with no result), the id is in the
cache, and any retransmission carrying the same id within the TTL window is
rejected outright (result `None`, cache unchanged) instead of being
reprocessed with a correct key. -/
theorem dedup_records_before_decrypt (c : DedupCache) (now : Nat) (env : ServiceEnvelope)
    (p : MeshPacket) (key : String)
    (hp : env.packet = some p) (hid : p.id ≠ 0) (hmem : cacheMem now c p.id = false) :
    cacheMem now (packetReceive c now env key).2 p.id = true ∧
    (∀ (env2 : ServiceEnvelope) (p2 : MeshPacket) (now2 : Nat) (key2 : String),
      env2.packet = some p2 → p2.id = p.id → now2 < now + DEDUP_TTL →
      packetReceive (packetReceive c now env key).2 now2 env2 key2 =
        (none, (packetReceive c now env key).2)) := by
  have hrec := packetReceive_records c now env p key hp hid hmem
  constructor
  · rw [hrec]
    exact cacheMem_insert_within c now now p.id (Nat.lt_add_of_pos_right (by decide))
  · intro env2 p2 now2 key2 hp2 hpid hlt
    have hm2 : cacheMem now2 (packetReceive c now env key).2 p2.id = true := by
      rw [hrec, hpid]
      exact cacheMem_insert_within c now now2 p.id hlt
    exact packetReceive_duplicate _ now2 env2 p2 key2 hp2 hm2

/-- Witness for C9: a packet with id 42 and an undecryptable key (`"x"` is
not valid base64) is dropped with no result, yet its id is recorded, and the
identical retransmission 3 seconds later is rejected with the cache
unchanged. -/
theorem dedup_records_before_decrypt_witness :
    (packetReceive ⟨[]⟩ 0
      ⟨some ⟨42, 7, 0, 0, 0, 0, 0, 0, 0, 0, PacketBody.encrypted [1, 2, 3]⟩, "", "gw"⟩
      "x").1 = none ∧
    cacheMem 0
      (packetReceive ⟨[]⟩ 0
        ⟨some ⟨42, 7, 0, 0, 0, 0, 0, 0, 0, 0, PacketBody.encrypted [1, 2, 3]⟩, "", "gw"⟩
        "x").2 42 = true ∧
    packetReceive
      (packetReceive ⟨[]⟩ 0
        ⟨some ⟨42, 7, 0, 0, 0, 0, 0, 0, 0, 0, PacketBody.encrypted [1, 2, 3]⟩, "", "gw"⟩
        "x").2 3
      ⟨some ⟨42, 7, 0, 0, 0, 0, 0, 0, 0, 0, PacketBody.encrypted [1, 2, 3]⟩, "", "gw"⟩ "x" =
      (none,
        (packetReceive ⟨[]⟩ 0
          ⟨some ⟨42, 7, 0, 0, 0, 0, 0, 0, 0, 0, PacketBody.encrypted [1, 2, 3]⟩, "", "gw"⟩
          "x").2) := by
  have h := dedup_records_before_decrypt ⟨[]⟩ 0
    ⟨some ⟨42, 7, 0, 0, 0, 0, 0, 0, 0, 0, PacketBody.encrypted [1, 2, 3]⟩, "", "gw"⟩
    ⟨42, 7, 0, 0, 0, 0, 0, 0, 0, 0, PacketBody.encrypted [1, 2, 3]⟩ "x"
    rfl (by decide) (by decide)
  exact ⟨rfl, h.1, h.2 _ _ 3 "x" rfl rfl (by decide)⟩

theorem bxor_cancel (a b : Nat) : bxor (bxor a b) b = a := by
  show a ^^^ b ^^^ b = a
  rw [Nat.xor_assoc, Nat.xor_self, Nat.xor_zero]

theorem zipWith_bxor_cancel :
    ∀ (p ks : List Nat), p.length ≤ ks.length →
      List.zipWith bxor (List.zipWith bxor p ks) ks = p := by
  intro p
  induction p with
  | nil => intro ks _; simp
  | cons a p ih =>
    intro ks h
    cases ks with
    | nil => simp at h
    | cons b ks =>
      simp only [List.zipWith_cons_cons, List.length_cons] at h ⊢
      rw [bxor_cancel a b, ih ks (by omega)]

theorem rotWord_length (w : List Nat) : (rotWord w).length = w.length := by
  cases w <;> simp [rotWord]

theorem nextKeyWord_length (acc : List (List Nat)) (h4 : 4 ≤ acc.length)
    (hall : ∀ w ∈ acc, w.length = 4) : (nextKeyWord acc).length = 4 := by
  unfold nextKeyWord
  dsimp only
  have hne : acc ≠ [] := by
    intro h
    rw [h] at h4
    simp at h4
  have hprev : ((acc.getLast?).getD []).length = 4 := by
    rw [List.getLast?_eq_getLast _ hne]
    exact hall _ (List.getLast_mem hne)
  have hlt : acc.length - 4 < acc.length := by omega
  have hw4 : ((acc[acc.length - 4]?).getD []).length = 4 := by
    rw [List.getElem?_eq_getElem hlt]
    exact hall _ (List.getElem_mem hlt)
  split_ifs
  · simp [List.length_zipWith, subWord, rotWord_length, hprev, hw4, List.getD]
  · simp [List.length_zipWith, hprev, hw4, List.getD]

theorem expandGo_all4 :
    ∀ (n : Nat) (acc : List (List Nat)), 4 ≤ acc.length → (∀ w ∈ acc, w.length = 4) →
      4 ≤ (expandGo n acc).length ∧ ∀ w ∈ expandGo n acc, w.length = 4 := by
  intro n
  induction n with
  | zero => intro acc h4 hall; exact ⟨h4, hall⟩
  | succ n ih =>
    intro acc h4 hall
    refine ih (acc ++ [nextKeyWord acc]) (by simp; omega) ?_
    intro w hw
    rcases List.mem_append.mp hw with hl | hr
    · exact hall w hl
    · simp only [List.mem_singleton] at hr
      rw [hr]
      exact nextKeyWord_length acc h4 hall

theorem expandGo_length (n : Nat) :
    ∀ acc : List (List Nat), (expandGo n acc).length = acc.length + n := by
  induction n with
  | zero => intro acc; rfl
  | succ n ih =>
    intro acc
    unfold expandGo
    rw [ih]
    simp
    omega

theorem expandKey_spec (key : List Nat) (hk : key.length = 16) :
    (expandKey key).length = 44 ∧ ∀ w ∈ expandKey key, w.length = 4 := by
  unfold expandKey
  constructor
  · rw [expandGo_length]
    rfl
  · refine (expandGo_all4 40 _ (by simp) ?_).2
    intro w hw
    simp only [List.mem_cons, List.not_mem_nil, or_false] at hw
    rcases hw with h | h | h | h <;> (rw [h]; simp [hk])

theorem flatten_length_four :
    ∀ (l : List (List Nat)), (∀ w ∈ l, w.length = 4) → l.flatten.length = 4 * l.length := by
  intro l
  induction l with
  | nil => intro _; rfl
  | cons w l ih =>
    intro h
    simp only [List.flatten_cons, List.length_append, List.length_cons]
    rw [h w (List.mem_cons_self _ _), ih (fun x hx => h x (List.mem_cons_of_mem _ hx))]
    omega

theorem roundKey_length (key : List Nat) (hk : key.length = 16) (r : Nat) (hr : r ≤ 10) :
    (roundKey (expandKey key) r).length = 16 := by
  obtain ⟨hlen, hall⟩ := expandKey_spec key hk
  unfold roundKey
  have htake : (((expandKey key).drop (4 * r)).take 4).length = 4 := by
    simp only [List.length_take, List.length_drop, hlen]
    omega
  rw [flatten_length_four _ ?_, htake]
  intro w hw
  exact hall w (List.mem_of_mem_drop (List.mem_of_mem_take hw))

theorem shiftRows_length (st : List Nat) : (shiftRows st).length = 16 := rfl

theorem mixColumns_length (st : List Nat) : (mixColumns st).length = 16 := rfl

theorem subBytes_length (st : List Nat) : (subBytes st).length = st.length := by
  simp [subBytes]

theorem aesEncryptBlock_length (key block : List Nat) (hk : key.length = 16)
    (hb : block.length = 16) : (aesEncryptBlock key block).length = 16 := by
  unfold aesEncryptBlock
  unfold addRoundKey
  rw [List.length_zipWith, roundKey_length key hk 10 (by omega), shiftRows_length]
  simp

theorem ctrCounterBlock_length (nonce : List Nat) (i : Nat) :
    (ctrCounterBlock nonce i).length = 16 := rfl

theorem ctrKeystream_length (key nonce : List Nat) (len : Nat) (hk : key.length = 16) :
    (ctrKeystream key nonce len).length = len := by
  unfold ctrKeystream
  rw [List.length_take]
  have hblocks : ∀ n : Nat, ((List.range n).flatMap
      (fun i => aesEncryptBlock key (ctrCounterBlock nonce i))).length = 16 * n := by
    intro n
    induction n with
    | zero => rfl
    | succ n ih =>
      rw [List.range_succ, List.flatMap_append, List.length_append, ih]
      simp only [List.flatMap_cons, List.flatMap_nil, List.append_nil]
      rw [aesEncryptBlock_length key _ hk (ctrCounterBlock_length nonce n)]
      omega
  rw [hblocks]
  have hdm := Nat.div_add_mod (len + 15) 16
  have hmlt : (len + 15) % 16 < 16 := Nat.mod_lt _ (by omega)
  omega

/-- C1 — **Round-trip crypto** (`try_encrypt_envelope` /
`build_encrypted_envelope` in `proto.py`): for every 16-byte AES key, 32-bit
packet id, 32-bit source id and plaintext of any length, the AES-CTR
transform under the nonce `packet_id (8 bytes LE) ‖ from_id (8 bytes LE)`
preserves the length exactly (no padding), and applying the same transform
twice with the same key, packet id and source id gives back the original
bytes. -/
theorem aes_ctr_round_trip (key : List Nat) (packetId fromId : Nat) (pt : List Nat)
    (hk : key.length = 16) (hpid : packetId < 2 ^ 32) (hfid : fromId < 2 ^ 32) :
    (aesCtrTransform key (meshNonce packetId fromId) pt).map List.length = some pt.length ∧
    (aesCtrTransform key (meshNonce packetId fromId) pt).bind
      (fun ct => aesCtrTransform key (meshNonce packetId fromId) ct) = some pt := by
  have hks := ctrKeystream_length key (meshNonce packetId fromId) pt.length hk
  have hct : (List.zipWith bxor pt (ctrKeystream key (meshNonce packetId fromId)
      pt.length)).length = pt.length := by
    rw [List.length_zipWith, hks]
    omega
  constructor
  · simp [aesCtrTransform, hk, hct]
  · simp only [aesCtrTransform, hk, if_pos, Option.some_bind, if_true]
    rw [hct]
    rw [zipWith_bxor_cancel pt _ (by rw [hks])]

/-- Witness for C1 at a 16-byte zero key, packet id 1, source id 2 and a
2-byte plaintext. -/
theorem aes_ctr_round_trip_witness :
    (aesCtrTransform (List.replicate 16 0) (meshNonce 1 2) [104, 105]).map List.length =
      some ([104, 105] : List Nat).length ∧
    (aesCtrTransform (List.replicate 16 0) (meshNonce 1 2) [104, 105]).bind
      (fun ct => aesCtrTransform (List.replicate 16 0) (meshNonce 1 2) ct) =
      some [104, 105] :=
  aes_ctr_round_trip (List.replicate 16 0) 1 2 [104, 105] (by decide) (by decide) (by decide)

theorem resolveKey_default :
    resolveKey DEFAULT_ENC_KEY = b64decode DEFAULT_ENC_KEY := by
  decide

/-- C5 — **Sentinel key substitution** (`try_encrypt_envelope` and
`build_encrypted_envelope` in `proto.py`): any PSK string whose base64
decoding is the single byte `0x01` decrypts every envelope exactly as the
documented default key `"1PG7OiApB1nwvP+rz05pAQ=="` does, and likewise on the
encrypt direction. -/
theorem sentinel_key_substitution (k : String)
    (hk : b64decode (normalizeKeyB64 k) = some [0x01]) :
    (∀ env, tryEncryptEnvelope env k = tryEncryptEnvelope env DEFAULT_ENC_KEY) ∧
    (∀ (text : String) (fromId toId channel : Nat) (channelId gatewayId : String)
        (hops : Nat) (rxSnr rxRssi : ℚ) (packetId now : Nat),
      buildEncryptedEnvelope text fromId toId channel k channelId gatewayId hops
          rxSnr rxRssi packetId now =
        buildEncryptedEnvelope text fromId toId channel DEFAULT_ENC_KEY channelId gatewayId
          hops rxSnr rxRssi packetId now) := by
  have hres : resolveKey k = resolveKey DEFAULT_ENC_KEY := by
    rw [resolveKey_default]
    unfold resolveKey
    rw [hk]
    simp
  constructor
  · intro env
    unfold tryEncryptEnvelope
    rw [hres]
  · intro text fromId toId channel channelId gatewayId hops rxSnr rxRssi packetId now
    unfold buildEncryptedEnvelope
    rw [hres]

/-- Witness for C5: the sentinel PSK `"AQ=="` behaves exactly like the
default key, on a concrete encrypted envelope and a concrete outbound
build. -/
theorem sentinel_key_substitution_witness :
    tryEncryptEnvelope
        ⟨some ⟨9, 8, 0, 0, 0, 0, 0, 0, 0, 0, PacketBody.encrypted [1, 2, 3]⟩, "", "gw"⟩
        "AQ==" =
      tryEncryptEnvelope
        ⟨some ⟨9, 8, 0, 0, 0, 0, 0, 0, 0, 0, PacketBody.encrypted [1, 2, 3]⟩, "", "gw"⟩
        DEFAULT_ENC_KEY ∧
    buildEncryptedEnvelope "hi" 1 2 0 "AQ==" "" "" 3 0 0 5 6 =
      buildEncryptedEnvelope "hi" 1 2 0 DEFAULT_ENC_KEY "" "" 3 0 0 5 6 := by
  have h := sentinel_key_substitution "AQ==" (by decide)
  exact ⟨h.1 _, h.2 "hi" 1 2 0 "" "" 3 0 0 5 6⟩

end MeshtasticTracker
